import Mathlib

/-!
Shallow embedding of the Mapper crawler (src/Mapper/src): string and URL
helpers modelling the Python primitives the source relies on, the CMS
selector detector (utils/selectors.py), board discovery
(crawlers/boards.py) and the campus/department hierarchy extractor
(crawlers/departments.py), followed by theorems settling the frozen
claims about them.
-/

/-- Python's `needle in hay` on strings at the character-list level:
`needle` occurs as a contiguous run inside `hay`. -/
def substr_scan (hay needle : List Char) : Bool :=
  match hay with
  | [] => needle.isPrefixOf []
  | _ :: t => needle.isPrefixOf hay || substr_scan t needle

/-- Python's `needle in hay` substring test on strings. -/
def str_in (needle hay : String) : Bool :=
  substr_scan hay.data needle.data

/-- Python's `s.startswith(pre)`. -/
def py_startswith (s pre : String) : Bool :=
  pre.data.isPrefixOf s.data

/-- Python's `s.lower()` (ASCII case folding; the Korean text in play has no
case, so this matches `str.lower` on every string the source handles). -/
def pyLower (s : String) : String :=
  ⟨s.data.map Char.toLower⟩

/-- Python's `s.strip()`: drop whitespace from both ends. -/
def py_strip (s : String) : String :=
  ⟨((s.data.dropWhile Char.isWhitespace).reverse.dropWhile Char.isWhitespace).reverse⟩

/-- Python's `s.replace(' ', '_')`. -/
def py_replace_space (s : String) : String :=
  ⟨s.data.map (fun c => if c = ' ' then '_' else c)⟩

/-- Python's `re.sub(marker + ".*", "", text)` on a single-line text: keep the
characters before the first occurrence of `marker`, drop the rest. -/
def cut_after (marker : List Char) : List Char → List Char
  | [] => []
  | c :: cs => if marker.isPrefixOf (c :: cs) then [] else c :: cut_after marker cs

/-- Split a character list at its first colon, when one exists. -/
def split_colon : List Char → Option (List Char × List Char)
  | [] => none
  | c :: rest =>
    if c = ':' then some ([], rest)
    else
      match split_colon rest with
      | some p => some (c :: p.1, p.2)
      | none => none

/-- RFC 3986 scheme shape used by `urllib.parse`: a letter followed by
letters, digits, `+`, `-` or `.`. -/
def valid_scheme (l : List Char) : Bool :=
  match l with
  | [] => false
  | c :: cs => c.isAlpha && cs.all (fun d => d.isAlphanum || d = '+' || d = '-' || d = '.')

/-- Characters of a URL after its scheme (the URL itself when it has none),
modelling `urllib.parse.urlparse`'s scheme split. -/
def url_rest (url : String) : List Char :=
  match split_colon url.data with
  | some p => if valid_scheme p.1 then p.2 else url.data
  | none => url.data

/-- The scheme of a URL, lowercased, or `""`; models `urlparse(url).scheme`. -/
def url_scheme (url : String) : String :=
  match split_colon url.data with
  | some p => if valid_scheme p.1 then pyLower ⟨p.1⟩ else ""
  | none => ""

/-- `urlparse(url).netloc`: the authority component, present only after
`//`, running up to the next `/`, `?` or `#`. -/
def url_netloc (url : String) : String :=
  match url_rest url with
  | '/' :: '/' :: rest => ⟨rest.takeWhile (fun c => c ≠ '/' && c ≠ '?' && c ≠ '#')⟩
  | _ => ""

/-- `urlparse(url).path`: what follows the authority, up to `?` or `#`. -/
def url_path (url : String) : String :=
  match url_rest url with
  | '/' :: '/' :: rest =>
    ⟨(rest.dropWhile (fun c => c ≠ '/' && c ≠ '?' && c ≠ '#')).takeWhile
      (fun c => c ≠ '?' && c ≠ '#')⟩
  | r => ⟨r.takeWhile (fun c => c ≠ '?' && c ≠ '#')⟩

/-- The host inside a netloc: drop a `user:pass@` prefix, stop at the port
colon; models `urlparse(...).hostname` for the non-IPv6 shapes in play. -/
def url_host_of_netloc (n : String) : String :=
  ⟨((n.data.reverse.takeWhile (fun c => c ≠ '@')).reverse).takeWhile (fun c => c ≠ ':')⟩

/-- Case-insensitive host of a URL, the comparison key of the claims about
cross-origin rejection. -/
def url_host_ci (url : String) : String :=
  url_host_of_netloc (pyLower (url_netloc url))

/-- Base directory of a path for relative-reference resolution: everything up
to and including the last `/`, or `/` when the path has none. -/
def dir_part (p : List Char) : List Char :=
  match (p.reverse.dropWhile (fun c => c ≠ '/')).reverse with
  | [] => ['/']
  | r => r

/-- Join a scheme-less reference onto a base URL (protocol-relative,
root-relative, or relative without dot segments). -/
def url_join_rel (base href : String) : String :=
  match href.data with
  | '/' :: '/' :: _ => url_scheme base ++ ":" ++ href
  | '/' :: _ => url_scheme base ++ "://" ++ url_netloc base ++ href
  | _ => url_scheme base ++ "://" ++ url_netloc base ++ ⟨dir_part (url_path base).data⟩ ++ href

/-- `urllib.parse.urljoin(base, href)` for the URL shapes the crawler meets:
an empty href yields the base, an href with a scheme stands alone, anything
else resolves against the base. -/
def urljoin (base href : String) : String :=
  if href = "" then base
  else
    match split_colon href.data with
    | some p => if valid_scheme p.1 then href else url_join_rel base href
    | none => url_join_rel base href

/-- Selector bundle (utils/selectors.py): the four CSS coordinates a board
needs to be scraped later. -/
structure Selectors where
  row_selector : String
  title_selector : String
  date_selector : String
  attr_name : String
deriving DecidableEq

/-- Fixed bundle returned for the standard Yonsei CMS branch of
`detect_cms_selectors`. -/
def yonsei_cms_selectors : Selectors :=
  { row_selector := "tr:has(a.c-board-title)"
    title_selector := "a.c-board-title"
    date_selector := "td:nth-last-child(1)"
    attr_name := "href" }

/-- Fixed bundle returned for the XE board system branch of
`detect_cms_selectors`. -/
def xe_cms_selectors : Selectors :=
  { row_selector := "li.xe-list-board-list--item:not(.xe-list-board-list--header)"
    title_selector := "a.xe-list-board-list__title-link"
    date_selector := ".xe-list-board-list__created_at"
    attr_name := "href" }

/-- An `<a>` element as the crawler sees it: its visible text and its href
attribute when present. -/
structure Anchor where
  text : String
  href : Option String
deriving DecidableEq

/-- A parsed HTML document (`BeautifulSoup` value): its anchors in document
order and its serialized markup (`str(soup)`). -/
structure Doc where
  anchors : List Anchor
  markup : String
deriving DecidableEq

/-- `detect_cms_selectors` (utils/selectors.py): first-match-wins CMS
fingerprinting from the URL string and the lowercased serialized markup. -/
def detect_cms_selectors (soup : Doc) (url : String) : Option Selectors :=
  let html_str := pyLower soup.markup
  if str_in ".do" url || str_in "c-board-title" html_str then
    some yonsei_cms_selectors
  else if str_in "xe-list-board" html_str || str_in "xe_board" html_str then
    some xe_cms_selectors
  else none

/-- A keyword table entry: category id and display name (config.py
`KEYWORD_MAP` values). -/
structure BoardMeta where
  id : String
  name : String
deriving DecidableEq

/-- `KEYWORD_MAP` (config.py), as the ordered association list the Python
dict iterates in insertion order. -/
def KEYWORD_MAP : List (String × BoardMeta) :=
  [("학부공지", { id := "academic", name := "학사공지" }),
   ("대학원공지", { id := "grad_notice", name := "대학원공지" }),
   ("장학", { id := "scholarship", name := "장학공지" }),
   ("취업", { id := "career", name := "취업/진로" }),
   ("공지사항", { id := "notice", name := "일반공지" }),
   ("학사공지", { id := "academic", name := "학사공지" })]

/-- `Board` dataclass (crawlers/boards.py). -/
structure Board where
  id : String
  name : String
  url : String
  row_selector : String
  title_selector : String
  date_selector : String
  attr_name : String
deriving DecidableEq

/-- The selector bundle a `Board` carries, as one value. -/
def board_selectors (b : Board) : Selectors :=
  { row_selector := b.row_selector
    title_selector := b.title_selector
    date_selector := b.date_selector
    attr_name := b.attr_name }

/-- `ManualReviewItem` dataclass (crawlers/boards.py). -/
structure ManualReviewItem where
  campus : String
  name : String
  url : String
  reason : String
deriving DecidableEq

/-- `BoardDiscoveryResult` dataclass (crawlers/boards.py). -/
structure BoardDiscoveryResult where
  boards : List Board
  manual_review : Option ManualReviewItem
deriving DecidableEq

/-- The `dept_info` dict handed to `discover_boards`: campus and department
name. -/
structure DeptInfo where
  campus : String
  name : String
deriving DecidableEq

/-- `_is_valid_board_link` (crawlers/boards.py): reject hrefs containing a
blacklisted detail-view substring and texts longer than 20 characters. -/
def _is_valid_board_link (text href : String) : Bool :=
  let blacklist := ["articleNo", "article_no", "mode=view", "seq", "view.do", "board_seq"]
  if blacklist.any (fun w => str_in w href) then false
  else if text.length > 20 then false
  else true

/-- `id_counts.get(base_id, 0)` on the association-list model of the Python
dict. -/
def dict_get (d : List (String × Nat)) (k : String) : Nat :=
  match d.find? (fun p => p.1 == k) with
  | some p => p.2
  | none => 0

/-- `id_counts[base_id] = v` on the association-list model of the Python
dict. -/
def dict_set (d : List (String × Nat)) (k : String) (v : Nat) : List (String × Nat) :=
  match d with
  | [] => [(k, v)]
  | p :: rest => if p.1 == k then (k, v) :: rest else p :: dict_set rest k v

/-- The id-disambiguation rule of `_extract_boards_from_soup`: the first
board of a category keeps the bare category id, later ones get `_n`. -/
def _board_final_id (base_id : String) (n : Nat) : String :=
  if n > 1 then base_id ++ "_" ++ toString n else base_id

/-- The keyword loop body of `_extract_boards_from_soup` for one anchor:
walk `KEYWORD_MAP` in order; on the first keyword contained in the text,
take the detected selectors or the defaults, and keep scanning keywords when
neither exists (the Python `continue` on a falsy `selectors`). -/
def _match_keyword (soup : Doc) (full_url : String) (defaults : Option Selectors)
    (text : String) : List (String × BoardMeta) → Option (BoardMeta × Selectors)
  | [] => none
  | (keyword, meta) :: rest =>
    if str_in keyword text = false then
      _match_keyword soup full_url defaults text rest
    else
      match (match detect_cms_selectors soup full_url with
             | some s => some s
             | none => defaults) with
      | none => _match_keyword soup full_url defaults text rest
      | some sel => some (meta, sel)

/-- The anchors `soup.find_all("a", href=True)` enumerates: text/href pairs
of the anchors that carry an href attribute, in document order. -/
def anchors_with_href (soup : Doc) : List (String × String) :=
  soup.anchors.filterMap (fun a => a.href.map (fun h => (a.text, h)))

/-- The main loop of `_extract_boards_from_soup` over the remaining anchors,
threading the `seen_urls` set and the `id_counts` dict. -/
def _extract_go (soup : Doc) (base_url : String) (defaults : Option Selectors)
    (base_domain : String) :
    List (String × String) → List String → List (String × Nat) → List Board
  | [], _, _ => []
  | (text, href) :: links, seen_urls, id_counts =>
    if _is_valid_board_link text href = false then
      _extract_go soup base_url defaults base_domain links seen_urls id_counts
    else
      let full_url := urljoin base_url href
      if seen_urls.contains full_url || str_in "javascript" href || str_in "#" href then
        _extract_go soup base_url defaults base_domain links seen_urls id_counts
      else if pyLower (url_netloc full_url) ≠ base_domain then
        _extract_go soup base_url defaults base_domain links seen_urls id_counts
      else
        match _match_keyword soup full_url defaults text KEYWORD_MAP with
        | none => _extract_go soup base_url defaults base_domain links seen_urls id_counts
        | some (meta, sel) =>
          let cnt := dict_get id_counts meta.id + 1
          { id := _board_final_id meta.id cnt
            name := if text = "" then meta.name else text
            url := full_url
            row_selector := sel.row_selector
            title_selector := sel.title_selector
            date_selector := sel.date_selector
            attr_name := sel.attr_name } ::
            _extract_go soup base_url defaults base_domain links
              (full_url :: seen_urls) (dict_set id_counts meta.id cnt)

/-- `_extract_boards_from_soup` (crawlers/boards.py): scan every anchor with
an href, filter, resolve, deduplicate, classify by keyword and emit boards. -/
def _extract_boards_from_soup (soup : Doc) (base_url : String)
    (defaults : Option Selectors) : List Board :=
  _extract_go soup base_url defaults (pyLower (url_netloc base_url))
    (anchors_with_href soup) [] []

/-- Ghost-instrumented copy of `_extract_go` that pairs every emitted board
with the category id (`meta["id"]`) it was assigned to; used only to state
and prove the id-disambiguation claim, and proved equal to `_extract_go`
after dropping the tags. -/
def _extract_go_tagged (soup : Doc) (base_url : String) (defaults : Option Selectors)
    (base_domain : String) :
    List (String × String) → List String → List (String × Nat) → List (String × Board)
  | [], _, _ => []
  | (text, href) :: links, seen_urls, id_counts =>
    if _is_valid_board_link text href = false then
      _extract_go_tagged soup base_url defaults base_domain links seen_urls id_counts
    else
      let full_url := urljoin base_url href
      if seen_urls.contains full_url || str_in "javascript" href || str_in "#" href then
        _extract_go_tagged soup base_url defaults base_domain links seen_urls id_counts
      else if pyLower (url_netloc full_url) ≠ base_domain then
        _extract_go_tagged soup base_url defaults base_domain links seen_urls id_counts
      else
        match _match_keyword soup full_url defaults text KEYWORD_MAP with
        | none => _extract_go_tagged soup base_url defaults base_domain links seen_urls id_counts
        | some (meta, sel) =>
          let cnt := dict_get id_counts meta.id + 1
          (meta.id,
            { id := _board_final_id meta.id cnt
              name := if text = "" then meta.name else text
              url := full_url
              row_selector := sel.row_selector
              title_selector := sel.title_selector
              date_selector := sel.date_selector
              attr_name := sel.attr_name }) ::
            _extract_go_tagged soup base_url defaults base_domain links
              (full_url :: seen_urls) (dict_set id_counts meta.id cnt)

/-- Tagged variant of `_extract_boards_from_soup` carrying each board's
category id. -/
def _extract_tagged (soup : Doc) (base_url : String)
    (defaults : Option Selectors) : List (String × Board) :=
  _extract_go_tagged soup base_url defaults (pyLower (url_netloc base_url))
    (anchors_with_href soup) [] []

/-- The sitemap link text test `re.compile(r"사이트맵|Sitemap", re.I)`. -/
def sitemap_text_match (t : String) : Bool :=
  str_in "사이트맵" t || str_in "sitemap" (pyLower t)

/-- `_find_sitemap` (crawlers/boards.py): find the first anchor whose text
matches the sitemap marker, and fetch its resolved href with timeout 5.
Network fetches are the external collaborator `fetch`. -/
def _find_sitemap (fetch : String → Nat → Option Doc) (soup : Doc)
    (base_url : String) : Option Doc :=
  match soup.anchors.find? (fun a => sitemap_text_match a.text) with
  | none => none
  | some a =>
    match a.href with
    | none => none
    | some h => if h = "" then none else fetch (urljoin base_url h) 5

/-- `discover_boards` (crawlers/boards.py): URL validation, homepage fetch
(timeout 7), default CMS detection, sitemap-first extraction with homepage
fallback. `fetch` stands for `get_soup`. -/
def discover_boards (fetch : String → Nat → Option Doc) (dept_info : DeptInfo)
    (dept_url : String) : BoardDiscoveryResult :=
  if dept_url = "NOT_FOUND" ∨ py_startswith dept_url "http" = false then
    { boards := []
      manual_review := some
        { campus := dept_info.campus, name := dept_info.name
          url := dept_url, reason := "Homepage URL is invalid" } }
  else
    match fetch dept_url 7 with
    | none =>
      { boards := []
        manual_review := some
          { campus := dept_info.campus, name := dept_info.name
            url := dept_url, reason := "Failed to fetch homepage" } }
    | some soup =>
      let default_selectors := detect_cms_selectors soup dept_url
      match _find_sitemap fetch soup dept_url with
      | some sitemap_soup =>
        let boards := _extract_boards_from_soup sitemap_soup dept_url default_selectors
        if boards = [] then
          { boards := _extract_boards_from_soup soup dept_url default_selectors
            manual_review := none }
        else
          { boards := boards, manual_review := none }
      | none =>
        { boards := _extract_boards_from_soup soup dept_url default_selectors
          manual_review := none }

/-- `Department` dataclass (crawlers/departments.py). -/
structure Department where
  id : String
  name : String
  url : String
  boards : List Board
deriving DecidableEq

/-- `College` dataclass (crawlers/departments.py). -/
structure College where
  name : String
  departments : List Department
deriving DecidableEq

/-- `Campus` dataclass (crawlers/departments.py). -/
structure Campus where
  campus : String
  colleges : List College
deriving DecidableEq

/-- One markup sibling (`div`/`p`/`span`) following a heading's container,
carrying the anchors a homepage link is searched in. -/
structure SiblingBlock where
  anchors : List Anchor
deriving DecidableEq

/-- One `h1` heading of the campus page's main region: its text and the
sibling blocks `find_next_siblings(["div", "p", "span"], ...)` yields. -/
structure HeaderBlock where
  text : String
  siblings : List SiblingBlock
deriving DecidableEq

/-- A campus landing page restricted to its main content region: the `h1`
headings in document order. -/
structure CampusPage where
  headers : List HeaderBlock
deriving DecidableEq

/-- The homepage link lookup inside one sibling of `_extract_department_url`:
the first anchor whose text contains the homepage marker, accepted when its
href is present, nonempty and not a fragment. -/
def _homepage_link_href (sib : SiblingBlock) : Option String :=
  match sib.anchors.find? (fun a => str_in "홈페이지" a.text) with
  | none => none
  | some a =>
    match a.href with
    | none => none
    | some h => if h ≠ "" ∧ py_startswith h "#" = false then some h else none

/-- `_extract_department_url` (crawlers/departments.py): scan up to three
following siblings for a homepage link, else the `"NOT_FOUND"` sentinel. -/
def _extract_department_url (header : HeaderBlock) : String :=
  match (header.siblings.take 3).findSome? _homepage_link_href with
  | some h => h
  | none => "NOT_FOUND"

/-- The regex `https?://` anchored at the start of the URL: drop the scheme
prefix when present. -/
def drop_scheme : List Char → Option (List Char)
  | 'h' :: 't' :: 't' :: 'p' :: 's' :: ':' :: '/' :: '/' :: rest => some rest
  | 'h' :: 't' :: 't' :: 'p' :: ':' :: '/' :: '/' :: rest => some rest
  | _ => none

/-- `re.match(r"https?://([^.]+)\.yonsei\.ac\.kr", url)`: after the scheme, a
maximal nonempty dot-free run captured as the subdomain, followed by the
literal `.yonsei.ac.kr` (and then anything — the regex is unanchored on the
right). -/
def yonsei_subdomain_match (url : String) : Option String :=
  match drop_scheme url.data with
  | none => none
  | some rest =>
    let sub := rest.takeWhile (fun c => c ≠ '.')
    if sub.isEmpty then none
    else if ".yonsei.ac.kr".data.isPrefixOf (rest.dropWhile (fun c => c ≠ '.')) then
      some ⟨sub⟩
    else none

/-- The name-derived department id: `f"yonsei_{name.lower().replace(' ', '_')}"`. -/
def _dept_name_id (name : String) : String :=
  "yonsei_" ++ py_replace_space (pyLower name)

/-- `_generate_department_id` (crawlers/departments.py). -/
def _generate_department_id (name url : String) : String :=
  match (if url ≠ "" ∧ url ≠ "NOT_FOUND" then yonsei_subdomain_match url else none) with
  | some sub => "yonsei_" ++ pyLower sub
  | none => _dept_name_id name

/-- The header-text cleanup of `crawl_campus`: drop everything from the
faculty-list marker, then from the homepage marker, then strip. -/
def clean_header_text (t : String) : String :=
  py_strip ⟨cut_after "홈페이지".data (cut_after "교수진".data t.data)⟩

/-- Is `c` a Hangul syllable, the `[가-힣]` character class. -/
def is_hangul (c : Char) : Bool :=
  0xAC00 ≤ c.toNat && c.toNat ≤ 0xD7A3

/-- `college_pattern.search(text)` for `([가-힣]+대학)$`: the text ends with
`대학` preceded by at least one Hangul syllable. -/
def college_header_match (t : String) : Bool :=
  match t.data.reverse with
  | '학' :: '대' :: c :: _ => is_hangul c
  | _ => false

/-- One iteration of the `crawl_campus` header loop. The college list is
kept reversed so its head is the mutable `current_college` reference of the
source; an empty list is the `current_college = None` state. -/
def process_header (cs : List College) (header : HeaderBlock) : List College :=
  let text := clean_header_text header.text
  if text = "" then cs
  else if college_header_match text then
    match cs with
    | c :: _ => if c.name = text then cs else { name := text, departments := [] } :: cs
    | [] => [{ name := text, departments := [] }]
  else
    match cs with
    | [] => cs
    | c :: rest =>
      if str_in "대학" text then cs
      else if c.departments.any (fun d => d.name = text) then cs
      else
        let dept_url := _extract_department_url header
        let dept_id := _generate_department_id text dept_url
        { name := c.name
          departments := c.departments ++
            [{ id := dept_id, name := text, url := dept_url, boards := [] }] } :: rest

/-- The college list `crawl_campus` builds from the heading stream. -/
def crawl_campus_colleges (page : CampusPage) : List College :=
  (page.headers.foldl process_header []).reverse

/-- `crawl_campus` (crawlers/departments.py). `fetch_page` stands for the
composition of `get_soup` and the `main` region lookup: `none` covers both a
failed fetch and a missing main content area, either of which makes the
source return `None`. -/
def crawl_campus (fetch_page : String → Option CampusPage) (url : String)
    (campus_name : String) : Option Campus :=
  match fetch_page url with
  | none => none
  | some page => some { campus := campus_name, colleges := crawl_campus_colleges page }

/-- JSON values as produced by the `to_dict` projections: strings, arrays
and key-ordered objects (the only shapes these files contain). -/
inductive Json where
  | str : String → Json
  | arr : List Json → Json
  | obj : List (String × Json) → Json

/-- `Board.to_dict` (crawlers/boards.py). -/
def Board.to_dict (b : Board) : Json :=
  .obj [("id", .str b.id), ("name", .str b.name), ("url", .str b.url),
        ("row_selector", .str b.row_selector), ("title_selector", .str b.title_selector),
        ("date_selector", .str b.date_selector), ("attr_name", .str b.attr_name)]

/-- `Department.to_dict` (crawlers/departments.py) composed with the board
serialization of main.py: the source passes `self.boards` through unchanged
and the orchestrator fills that slot with `Board.to_dict` values, so the
serialized department of the enriched output carries board objects. -/
def Department.to_dict (d : Department) : Json :=
  .obj [("id", .str d.id), ("name", .str d.name), ("url", .str d.url),
        ("boards", .arr (d.boards.map Board.to_dict))]

/-- `College.to_dict` (crawlers/departments.py). -/
def College.to_dict (c : College) : Json :=
  .obj [("name", .str c.name),
        ("departments", .arr (c.departments.map Department.to_dict))]

/-- `Campus.to_dict` (crawlers/departments.py). -/
def Campus.to_dict (c : Campus) : Json :=
  .obj [("campus", .str c.campus),
        ("colleges", .arr (c.colleges.map College.to_dict))]

/-- Modelled from the spec: re-parsing a serialized `Board` from the output
JSON shape (§3/§6 field names); no parser exists in the repository, only the
serializers, so this inverse projection follows the spec's key list. -/
def Board.from_dict : Json → Option Board
  | .obj [("id", .str i), ("name", .str n), ("url", .str u),
          ("row_selector", .str r), ("title_selector", .str t),
          ("date_selector", .str dt), ("attr_name", .str a)] =>
    some { id := i, name := n, url := u, row_selector := r,
           title_selector := t, date_selector := dt, attr_name := a }
  | _ => none

/-- Modelled from the spec: re-parsing a serialized `Department` (§3/§6 key
nesting), boards parsed elementwise. -/
def Department.from_dict : Json → Option Department
  | .obj [("id", .str i), ("name", .str n), ("url", .str u), ("boards", .arr bs)] =>
    (bs.mapM Board.from_dict).map
      (fun boards => { id := i, name := n, url := u, boards := boards })
  | _ => none

/-- Modelled from the spec: re-parsing a serialized `College`. -/
def College.from_dict : Json → Option College
  | .obj [("name", .str n), ("departments", .arr ds)] =>
    (ds.mapM Department.from_dict).map
      (fun deps => { name := n, departments := deps })
  | _ => none

/-- Modelled from the spec: re-parsing a serialized `Campus`. -/
def Campus.from_dict : Json → Option Campus
  | .obj [("campus", .str n), ("colleges", .arr cs)] =>
    (cs.mapM College.from_dict).map
      (fun colleges => { campus := n, colleges := colleges })
  | _ => none

/-- The claim-side URL pattern of C5, read literally from the spec:
`scheme://{subdomain}.yonsei.ac.kr/...` — a web scheme, one nonempty dot-free
label, the institution domain, and then a slash-led remainder. Returns the
subdomain on a match. -/
def spec_yonsei_url_pattern (url : String) : Option String :=
  match drop_scheme url.data with
  | none => none
  | some rest =>
    let sub := rest.takeWhile (fun c => c ≠ '.')
    if sub.isEmpty then none
    else if ".yonsei.ac.kr/".data.isPrefixOf (rest.dropWhile (fun c => c ≠ '.')) then
      some ⟨sub⟩
    else none

/-- A campus heading with no sibling markup, used by concrete instances. -/
def ex_header_eng : HeaderBlock := { text := "공과대학", siblings := [] }

/-- A second campus heading with no sibling markup. -/
def ex_header_lib : HeaderBlock := { text := "문과대학", siblings := [] }

/-- A heading stream repeating a college title non-consecutively. -/
def ex_campus_page_dup : CampusPage :=
  { headers := [ex_header_eng, ex_header_lib, ex_header_eng] }

/-- A homepage document with a sitemap link and one board link. -/
def ex_home_doc : Doc :=
  { anchors := [{ text := "사이트맵", href := some "/map" },
                { text := "공지사항", href := some "/home/notice.do" }]
    markup := "<html></html>" }

/-- A sitemap document with one board link. -/
def ex_map_doc : Doc :=
  { anchors := [{ text := "학사공지", href := some "/bbs/academic.do" }]
    markup := "<div></div>" }

/-- A fetch oracle serving the example homepage and its sitemap. -/
def ex_fetch_site (u : String) (_t : Nat) : Option Doc :=
  if u = "http://h/home" then some ex_home_doc
  else if u = "http://h/map" then some ex_map_doc
  else none

/-- A document with two anchors classified into the same keyword category. -/
def ex_two_notice_doc : Doc :=
  { anchors := [{ text := "공지사항", href := some "/a.do" },
                { text := "공지사항 2", href := some "/b.do" }]
    markup := "<p></p>" }

/-- A fetch oracle serving a single homepage with one board link and no
sitemap. -/
def ex_fetch_plain (u : String) (_t : Nat) : Option Doc :=
  if u = "http://h10/" then
    some { anchors := [{ text := "공지사항", href := some "/bbs/list.do" }]
           markup := "<p></p>" }
  else none

/-- A fetch oracle that always fails. -/
def ex_fetch_none (_u : String) (_t : Nat) : Option Doc := none

theorem substr_scan_of_isPrefixOf (l n : List Char) (h : n.isPrefixOf l = true) :
    substr_scan l n = true := by
  cases l with
  | nil => simpa [substr_scan] using h
  | cons c t => simp [substr_scan, h]

theorem py_startswith_javascript_str_in (h : String)
    (hp : py_startswith h "javascript:" = true) : str_in "javascript" h = true := by
  have h1 : "javascript".data <+: "javascript:".data := by decide
  have h2 : "javascript:".data <+: h.data :=
    List.isPrefixOf_iff_prefix.mp hp
  exact substr_scan_of_isPrefixOf _ _ (List.isPrefixOf_iff_prefix.mpr (h1.trans h2))

theorem dict_get_set (d : List (String × Nat)) (k k' : String) (v : Nat) :
    dict_get (dict_set d k v) k' = if k' = k then v else dict_get d k' := by
  induction d with
  | nil =>
    by_cases h : k' = k
    · subst h; simp [dict_set, dict_get]
    · have hb : (k == k') = false := beq_eq_false_iff_ne.mpr (fun hh => h hh.symm)
      simp [dict_set, dict_get, hb, h]
  | cons p rest ih =>
    by_cases hp : p.1 = k
    · have hb : (p.1 == k) = true := beq_iff_eq.mpr hp
      by_cases h : k' = k
      · subst h; simp [dict_set, dict_get, hb]
      · have hkk : (k == k') = false := beq_eq_false_iff_ne.mpr (fun hh => h hh.symm)
        have hpk : (p.1 == k') = false := by rw [hp]; exact hkk
        simp [dict_set, dict_get, hb, hkk, hpk, h]
    · have hb : (p.1 == k) = false := beq_eq_false_iff_ne.mpr hp
      by_cases hq : p.1 = k'
      · have hq' : (p.1 == k') = true := beq_iff_eq.mpr hq
        have h : ¬ k' = k := fun hh => hp (by rw [hq, hh])
        simp [dict_set, dict_get, hb, hq', h]
      · have hq' : (p.1 == k') = false := beq_eq_false_iff_ne.mpr hq
        have hrec := ih
        simp [dict_set, dict_get, hb, hq'] at hrec ⊢
        exact hrec

/-- Claim C4 (amended): `detect_cms_selectors` is first-match-wins — it
returns the primary (Yonsei CMS) bundle exactly when the whole URL string
contains `.do` or the lowercased markup contains `c-board-title` (the claim
said "URL path"; the source tests the entire URL, query string included);
otherwise the XE bundle exactly when the markup contains one of the two XE
markers; otherwise `none`, never a partially fabricated bundle. -/
theorem detect_cms_selectors_first_match (soup : Doc) (url : String) :
    (detect_cms_selectors soup url = some yonsei_cms_selectors ↔
      (str_in ".do" url = true ∨ str_in "c-board-title" (pyLower soup.markup) = true)) ∧
    (detect_cms_selectors soup url = some xe_cms_selectors ↔
      (¬(str_in ".do" url = true ∨ str_in "c-board-title" (pyLower soup.markup) = true) ∧
       (str_in "xe-list-board" (pyLower soup.markup) = true ∨
        str_in "xe_board" (pyLower soup.markup) = true))) ∧
    (detect_cms_selectors soup url = none ↔
      (¬(str_in ".do" url = true ∨ str_in "c-board-title" (pyLower soup.markup) = true) ∧
       ¬(str_in "xe-list-board" (pyLower soup.markup) = true ∨
         str_in "xe_board" (pyLower soup.markup) = true))) := by
  by_cases h1 : (str_in ".do" url || str_in "c-board-title" (pyLower soup.markup)) = true
  · have hd : detect_cms_selectors soup url = some yonsei_cms_selectors := by
      simp only [detect_cms_selectors]
      rw [if_pos h1]
    have h1' : str_in ".do" url = true ∨ str_in "c-board-title" (pyLower soup.markup) = true := by
      simpa [Bool.or_eq_true] using h1
    rw [hd]
    exact ⟨iff_of_true rfl h1',
      iff_of_false (by decide) (fun hc => hc.1 h1'),
      iff_of_false (by decide) (fun hc => hc.1 h1')⟩
  · have hb : (str_in ".do" url || str_in "c-board-title" (pyLower soup.markup)) = false :=
      Bool.eq_false_iff.mpr h1
    have hnor : ¬(str_in ".do" url = true ∨ str_in "c-board-title" (pyLower soup.markup) = true) := by
      simp [Bool.or_eq_true] at hb
      simp [hb.1, hb.2]
    by_cases h2 : (str_in "xe-list-board" (pyLower soup.markup) ||
        str_in "xe_board" (pyLower soup.markup)) = true
    · have hd : detect_cms_selectors soup url = some xe_cms_selectors := by
        simp only [detect_cms_selectors]
        rw [if_neg (by simp [hb]), if_pos h2]
      have h2' : str_in "xe-list-board" (pyLower soup.markup) = true ∨
          str_in "xe_board" (pyLower soup.markup) = true := by
        simpa [Bool.or_eq_true] using h2
      rw [hd]
      exact ⟨iff_of_false (by decide) (fun ha => hnor ha),
        iff_of_true rfl ⟨hnor, h2'⟩,
        iff_of_false (by decide) (fun hc => hc.2 h2')⟩
    · have hb2 : (str_in "xe-list-board" (pyLower soup.markup) ||
          str_in "xe_board" (pyLower soup.markup)) = false :=
        Bool.eq_false_iff.mpr h2
      have hnor2 : ¬(str_in "xe-list-board" (pyLower soup.markup) = true ∨
          str_in "xe_board" (pyLower soup.markup) = true) := by
        simp [Bool.or_eq_true] at hb2
        simp [hb2.1, hb2.2]
      have hd : detect_cms_selectors soup url = none := by
        simp only [detect_cms_selectors]
        rw [if_neg (by simp [hb]), if_neg (by simp [hb2])]
      rw [hd]
      exact ⟨iff_of_false (by decide) (fun ha => hnor ha),
        iff_of_false (by decide) (fun hc => hnor2 hc.2),
        iff_of_true rfl ⟨hnor, hnor2⟩⟩

/-- Claim C4, counterexample to the claim as stated: on a URL whose query
string (but not path) contains `.do` and a markup with no CMS marker, the
detector still returns the primary bundle, so "the URL path contains `.do`"
is not the condition the source tests. -/
theorem detect_cms_selectors_query_do_counterexample :
    detect_cms_selectors { anchors := [], markup := "<html></html>" }
        "https://example.com/list?page=1.do" = some yonsei_cms_selectors ∧
    str_in ".do" (url_path "https://example.com/list?page=1.do") = false ∧
    str_in "c-board-title"
      (pyLower (Doc.mk [] "<html></html>").markup) = false := by
  decide

theorem takeWhile_append_all {α} (p : α → Bool) (l₁ l₂ : List α)
    (h : ∀ a ∈ l₁, p a = true) :
    (l₁ ++ l₂).takeWhile p = l₁ ++ l₂.takeWhile p := by
  induction l₁ with
  | nil => simp
  | cons a t ih =>
    have ha := h a (List.mem_cons_self a t)
    simp [List.takeWhile_cons, ha, ih (fun x hx => h x (List.mem_cons_of_mem a hx))]

theorem dropWhile_append_all {α} (p : α → Bool) (l₁ l₂ : List α)
    (h : ∀ a ∈ l₁, p a = true) :
    (l₁ ++ l₂).dropWhile p = l₂.dropWhile p := by
  induction l₁ with
  | nil => simp
  | cons a t ih =>
    have ha := h a (List.mem_cons_self a t)
    simp [List.dropWhile_cons, ha, ih (fun x hx => h x (List.mem_cons_of_mem a hx))]

theorem isPrefixOf_append_self {α} [BEq α] [LawfulBEq α] (l t : List α) :
    l.isPrefixOf (l ++ t) = true :=
  List.isPrefixOf_iff_prefix.mpr ⟨t, rfl⟩

theorem string_data_pattern (s sub rest : String) :
    (s ++ "://" ++ sub ++ ".yonsei.ac.kr" ++ rest).data
      = (s.data ++ "://".data) ++ (sub.data ++ (".yonsei.ac.kr".data ++ rest.data)) := by
  simp only [String.data_append, List.append_assoc]

theorem string_data_pattern_slash (s sub rest : String) :
    (s ++ "://" ++ sub ++ ".yonsei.ac.kr/" ++ rest).data
      = (s.data ++ "://".data) ++ (sub.data ++ (".yonsei.ac.kr/".data ++ rest.data)) := by
  simp only [String.data_append, List.append_assoc]

theorem yonsei_subdomain_match_pos (s sub rest : String)
    (hs : s = "http" ∨ s = "https") (hsub : sub ≠ "")
    (hdot : ∀ c ∈ sub.data, c ≠ '.') :
    yonsei_subdomain_match (s ++ "://" ++ sub ++ ".yonsei.ac.kr" ++ rest) = some sub := by
  have hp : ∀ c ∈ sub.data, (fun c => decide (c ≠ '.')) c = true :=
    fun c hc => decide_eq_true (hdot c hc)
  have hsubne : sub.data ≠ [] := fun hh => hsub (String.ext hh)
  have htw : (sub.data ++ (".yonsei.ac.kr".data ++ rest.data)).takeWhile
      (fun c => decide (c ≠ '.')) = sub.data := by
    rw [takeWhile_append_all _ _ _ hp]
    simp [List.takeWhile_cons]
  have hdw : (sub.data ++ (".yonsei.ac.kr".data ++ rest.data)).dropWhile
      (fun c => decide (c ≠ '.')) = ".yonsei.ac.kr".data ++ rest.data := by
    rw [dropWhile_append_all _ _ _ hp]
    simp [List.dropWhile_cons]
  cases hs with
  | inl h =>
    subst h
    have hdata : ("http" ++ "://" ++ sub ++ ".yonsei.ac.kr" ++ rest).data
        = "http://".data ++ (sub.data ++ (".yonsei.ac.kr".data ++ rest.data)) := by
      rw [string_data_pattern]
      congr 1
    unfold yonsei_subdomain_match
    rw [hdata]
    have hds : drop_scheme ("http://".data ++ (sub.data ++ (".yonsei.ac.kr".data ++ rest.data)))
        = some (sub.data ++ (".yonsei.ac.kr".data ++ rest.data)) := rfl
    rw [hds]
    simp only [htw, hdw]
    rw [if_neg (by simp [List.isEmpty_iff, hsubne])]
    rw [if_pos (isPrefixOf_append_self _ _)]
  | inr h =>
    subst h
    have hdata : ("https" ++ "://" ++ sub ++ ".yonsei.ac.kr" ++ rest).data
        = "https://".data ++ (sub.data ++ (".yonsei.ac.kr".data ++ rest.data)) := by
      rw [string_data_pattern]
      congr 1
    unfold yonsei_subdomain_match
    rw [hdata]
    have hds : drop_scheme ("https://".data ++ (sub.data ++ (".yonsei.ac.kr".data ++ rest.data)))
        = some (sub.data ++ (".yonsei.ac.kr".data ++ rest.data)) := rfl
    rw [hds]
    simp only [htw, hdw]
    rw [if_neg (by simp [List.isEmpty_iff, hsubne])]
    rw [if_pos (isPrefixOf_append_self _ _)]

theorem drop_scheme_inv (l r : List Char) (h : drop_scheme l = some r) :
    l = "https://".data ++ r ∨ l = "http://".data ++ r := by
  unfold drop_scheme at h
  split at h
  · left; cases h; rfl
  · right; cases h; rfl
  · cases h

theorem yonsei_subdomain_match_complete (url sub : String)
    (h : yonsei_subdomain_match url = some sub) :
    ∃ s rest, (s = "http" ∨ s = "https") ∧ sub ≠ "" ∧ (∀ c ∈ sub.data, c ≠ '.') ∧
      url = s ++ "://" ++ sub ++ ".yonsei.ac.kr" ++ rest := by
  unfold yonsei_subdomain_match at h
  cases hds : drop_scheme url.data with
  | none => rw [hds] at h; cases h
  | some rest0 =>
    rw [hds] at h
    dsimp only at h
    by_cases he : (rest0.takeWhile (fun c => decide (c ≠ '.'))).isEmpty = true
    · rw [if_pos he] at h; cases h
    · rw [if_neg he] at h
      by_cases hpref : ".yonsei.ac.kr".data.isPrefixOf
          (rest0.dropWhile (fun c => decide (c ≠ '.'))) = true
      · rw [if_pos hpref] at h
        have hsub : sub.data = rest0.takeWhile (fun c => decide (c ≠ '.')) := by
          cases h; rfl
        obtain ⟨t, ht⟩ := List.isPrefixOf_iff_prefix.mp hpref
        have hr : rest0 = sub.data ++ (".yonsei.ac.kr".data ++ t) := by
          rw [hsub, ht]
          exact (List.takeWhile_append_dropWhile _ _).symm
        have hne : sub ≠ "" := by
          intro hh
          rw [hh] at hsub
          exact he (List.isEmpty_iff.mpr hsub.symm)
        have hdot : ∀ c ∈ sub.data, c ≠ '.' := by
          intro c hc
          rw [hsub] at hc
          exact of_decide_eq_true (@List.mem_takeWhile_imp Char (fun c => decide (c ≠ '.')) rest0 c hc)
        cases drop_scheme_inv _ _ hds with
        | inl h8 =>
          refine ⟨"https", ⟨t⟩, Or.inr rfl, hne, hdot, ?_⟩
          apply String.ext
          rw [string_data_pattern, h8, hr]
          congr 1
        | inr h7 =>
          refine ⟨"http", ⟨t⟩, Or.inl rfl, hne, hdot, ?_⟩
          apply String.ext
          rw [string_data_pattern, h7, hr]
          congr 1
      · rw [if_neg hpref] at h; cases h

theorem spec_yonsei_url_pattern_pos (s sub rest : String)
    (hs : s = "http" ∨ s = "https") (hsub : sub ≠ "")
    (hdot : ∀ c ∈ sub.data, c ≠ '.') :
    spec_yonsei_url_pattern (s ++ "://" ++ sub ++ ".yonsei.ac.kr/" ++ rest) = some sub := by
  have hp : ∀ c ∈ sub.data, (fun c => decide (c ≠ '.')) c = true :=
    fun c hc => decide_eq_true (hdot c hc)
  have hsubne : sub.data ≠ [] := fun hh => hsub (String.ext hh)
  have htw : (sub.data ++ (".yonsei.ac.kr/".data ++ rest.data)).takeWhile
      (fun c => decide (c ≠ '.')) = sub.data := by
    rw [takeWhile_append_all _ _ _ hp]
    simp [List.takeWhile_cons]
  have hdw : (sub.data ++ (".yonsei.ac.kr/".data ++ rest.data)).dropWhile
      (fun c => decide (c ≠ '.')) = ".yonsei.ac.kr/".data ++ rest.data := by
    rw [dropWhile_append_all _ _ _ hp]
    simp [List.dropWhile_cons]
  cases hs with
  | inl h =>
    subst h
    have hdata : ("http" ++ "://" ++ sub ++ ".yonsei.ac.kr/" ++ rest).data
        = "http://".data ++ (sub.data ++ (".yonsei.ac.kr/".data ++ rest.data)) := by
      rw [string_data_pattern_slash]
      congr 1
    unfold spec_yonsei_url_pattern
    rw [hdata]
    have hds : drop_scheme ("http://".data ++ (sub.data ++ (".yonsei.ac.kr/".data ++ rest.data)))
        = some (sub.data ++ (".yonsei.ac.kr/".data ++ rest.data)) := rfl
    rw [hds]
    simp only [htw, hdw]
    rw [if_neg (by simp [List.isEmpty_iff, hsubne])]
    rw [if_pos (isPrefixOf_append_self _ _)]
  | inr h =>
    subst h
    have hdata : ("https" ++ "://" ++ sub ++ ".yonsei.ac.kr/" ++ rest).data
        = "https://".data ++ (sub.data ++ (".yonsei.ac.kr/".data ++ rest.data)) := by
      rw [string_data_pattern_slash]
      congr 1
    unfold spec_yonsei_url_pattern
    rw [hdata]
    have hds : drop_scheme ("https://".data ++ (sub.data ++ (".yonsei.ac.kr/".data ++ rest.data)))
        = some (sub.data ++ (".yonsei.ac.kr/".data ++ rest.data)) := rfl
    rw [hds]
    simp only [htw, hdw]
    rw [if_neg (by simp [List.isEmpty_iff, hsubne])]
    rw [if_pos (isPrefixOf_append_self _ _)]

/-- Claim C5 (amended): the URL branch of department-id generation triggers
exactly when the URL begins with `http://` or `https://`, a nonempty dot-free
label, and then the literal `.yonsei.ac.kr` — with any continuation, not
necessarily a `/` (the source regex is an unanchored prefix match) — and then
yields `yonsei_` plus the case-folded label; every other input gets the
name-derived id. Determinism is immediate: the id is a pure function of the
(name, url) pair. -/
theorem generate_department_id_amended (name url : String) :
    (∀ s sub rest, (s = "http" ∨ s = "https") → sub ≠ "" → (∀ c ∈ sub.data, c ≠ '.') →
        url = s ++ "://" ++ sub ++ ".yonsei.ac.kr" ++ rest →
        _generate_department_id name url = "yonsei_" ++ pyLower sub) ∧
    ((¬ ∃ s sub rest, (s = "http" ∨ s = "https") ∧ sub ≠ "" ∧ (∀ c ∈ sub.data, c ≠ '.') ∧
        url = s ++ "://" ++ sub ++ ".yonsei.ac.kr" ++ rest) →
      _generate_department_id name url = _dept_name_id name) := by
  constructor
  · intro s sub rest hs hsub hdot hurl
    have hm := yonsei_subdomain_match_pos s sub rest hs hsub hdot
    have hne : url ≠ "" := by
      intro hh
      rw [hurl] at hh
      have hd := congrArg String.data hh
      rw [string_data_pattern] at hd
      cases hs with
      | inl h => subst h; simp at hd
      | inr h => subst h; simp at hd
    have hnf : url ≠ "NOT_FOUND" := by
      intro hh
      rw [hurl] at hh
      have hd := congrArg String.data hh
      rw [string_data_pattern] at hd
      cases hs with
      | inl h =>
        subst h
        exact absurd (Option.some.inj (congrArg List.head? hd)) (by decide)
      | inr h =>
        subst h
        exact absurd (Option.some.inj (congrArg List.head? hd)) (by decide)
    unfold _generate_department_id
    rw [if_pos ⟨hne, hnf⟩, hurl, hm]
  · intro hnex
    unfold _generate_department_id
    cases hm : (if url ≠ "" ∧ url ≠ "NOT_FOUND" then yonsei_subdomain_match url else none) with
    | none => rfl
    | some sub =>
      have hmm : yonsei_subdomain_match url = some sub := by
        by_cases hg : url ≠ "" ∧ url ≠ "NOT_FOUND"
        · rwa [if_pos hg] at hm
        · rw [if_neg hg] at hm; cases hm
      obtain ⟨s, rest, hs, hsub, hdot, hurl⟩ := yonsei_subdomain_match_complete url sub hmm
      exact absurd ⟨s, sub, rest, hs, hsub, hdot, hurl⟩ hnex

/-- Claim C5, counterexample to the claim as stated: the URL
`https://econ.yonsei.ac.kr.evil.com/` does not match the claim's pattern
`scheme://{subdomain}.yonsei.ac.kr/...` (shown both through the computable
pattern checker and through the explicit decomposition), yet the source's
unanchored regex still takes the URL branch and produces `yonsei_econ`
instead of the name-derived `yonsei_econ_dept`. -/
theorem generate_department_id_counterexample :
    _generate_department_id "Econ Dept" "https://econ.yonsei.ac.kr.evil.com/" = "yonsei_econ" ∧
    spec_yonsei_url_pattern "https://econ.yonsei.ac.kr.evil.com/" = none ∧
    (¬ ∃ s sub rest, (s = "http" ∨ s = "https") ∧ sub ≠ "" ∧ (∀ c ∈ sub.data, c ≠ '.') ∧
      "https://econ.yonsei.ac.kr.evil.com/" = s ++ "://" ++ sub ++ ".yonsei.ac.kr/" ++ rest) ∧
    _dept_name_id "Econ Dept" = "yonsei_econ_dept" := by
  refine ⟨by decide, by decide, ?_, by decide⟩
  rintro ⟨s, sub, rest, hs, hsub, hdot, hurl⟩
  have hpos := spec_yonsei_url_pattern_pos s sub rest hs hsub hdot
  rw [← hurl] at hpos
  have h0 : spec_yonsei_url_pattern "https://econ.yonsei.ac.kr.evil.com/" = none := by decide
  rw [h0] at hpos
  cases hpos

/-- Claim C1, counterexample to the claim as stated: with heading stream
공과대학, 문과대학, 공과대학 the crawler produces a Campus holding two distinct
Colleges named 공과대학 — a repeated college header is only a no-op against
the current college, so name uniqueness within a Campus fails when the
repeat is not consecutive. -/
theorem crawl_campus_duplicate_college_names_counterexample :
    crawl_campus (fun _ => some ex_campus_page_dup) "https://campus.example/" "신촌캠퍼스"
      = some { campus := "신촌캠퍼스"
               colleges := [{ name := "공과대학", departments := [] },
                            { name := "문과대학", departments := [] },
                            { name := "공과대학", departments := [] }] } ∧
    ((crawl_campus (fun _ => some ex_campus_page_dup) "https://campus.example/" "신촌캠퍼스").map
        (fun c => decide ((c.colleges.map College.name).Nodup))) = some false := by
  constructor
  · decide
  · decide

/-- Claim C1 (amended): a repeated college header is a no-op exactly in the
consecutive sense — when its cleaned text names the current (most recently
opened) college, appending that header leaves the crawl of the campus page
unchanged; the counterexample shows a non-consecutive repeat instead creates
a second College with the same name. -/
theorem crawl_campus_repeat_current_college
    (page : CampusPage) (hb : HeaderBlock) (c : College) (rest : List College)
    (url nm : String)
    (hmatch : college_header_match (clean_header_text hb.text) = true)
    (hstate : page.headers.foldl process_header [] = c :: rest)
    (hname : clean_header_text hb.text = c.name) :
    crawl_campus (fun _ => some { headers := page.headers ++ [hb] }) url nm
      = crawl_campus (fun _ => some page) url nm := by
  have hmatch' : college_header_match c.name = true := by rwa [hname] at hmatch
  have hstep : process_header (c :: rest) hb = c :: rest := by
    unfold process_header
    rw [hname]
    rw [if_neg (by
      intro hh
      rw [hh] at hmatch'
      exact absurd hmatch' (by decide))]
    rw [if_pos hmatch']
    dsimp only
    rw [if_pos rfl]
  have h1 : (page.headers ++ [hb]).foldl process_header [] = c :: rest := by
    rw [List.foldl_append, hstate]
    exact hstep
  unfold crawl_campus crawl_campus_colleges
  dsimp only
  rw [h1, hstate]

/-- Claim C1, witness for the amended theorem: appending a consecutive
repeat of the single college header leaves the crawl unchanged. -/
theorem crawl_campus_repeat_current_college_witness :
    crawl_campus (fun _ => some { headers := [ex_header_eng, ex_header_eng] })
        "https://campus.example/" "신촌캠퍼스"
      = crawl_campus (fun _ => some { headers := [ex_header_eng] })
        "https://campus.example/" "신촌캠퍼스" :=
  crawl_campus_repeat_current_college { headers := [ex_header_eng] } ex_header_eng
    { name := "공과대학", departments := [] } [] "https://campus.example/" "신촌캠퍼스"
    (by decide) (by decide) (by decide)

theorem discover_boards_invalid (fetch : String → Nat → Option Doc) (info : DeptInfo)
    (url : String) (hv : url = "NOT_FOUND" ∨ py_startswith url "http" = false) :
    discover_boards fetch info url =
      { boards := []
        manual_review := some ⟨info.campus, info.name, url, "Homepage URL is invalid"⟩ } := by
  unfold discover_boards
  rw [if_pos hv]

theorem discover_boards_fetch_failed (fetch : String → Nat → Option Doc) (info : DeptInfo)
    (url : String) (hv : ¬(url = "NOT_FOUND" ∨ py_startswith url "http" = false))
    (hf : fetch url 7 = none) :
    discover_boards fetch info url =
      { boards := []
        manual_review := some ⟨info.campus, info.name, url, "Failed to fetch homepage"⟩ } := by
  unfold discover_boards
  rw [if_neg hv, hf]

theorem discover_boards_fetched (fetch : String → Nat → Option Doc) (info : DeptInfo)
    (url : String) (hdoc : Doc)
    (hv : ¬(url = "NOT_FOUND" ∨ py_startswith url "http" = false))
    (hf : fetch url 7 = some hdoc) :
    discover_boards fetch info url =
      (match _find_sitemap fetch hdoc url with
       | some sitemap_soup =>
         if _extract_boards_from_soup sitemap_soup url (detect_cms_selectors hdoc url) = [] then
           { boards := _extract_boards_from_soup hdoc url (detect_cms_selectors hdoc url)
             manual_review := none }
         else
           { boards := _extract_boards_from_soup sitemap_soup url (detect_cms_selectors hdoc url)
             manual_review := none }
       | none =>
         { boards := _extract_boards_from_soup hdoc url (detect_cms_selectors hdoc url)
           manual_review := none }) := by
  unfold discover_boards
  rw [if_neg hv, hf]

/-- Claim C2: `discover_boards` yields a manual-review item exactly when the
homepage URL is the `NOT_FOUND` sentinel or does not begin with the web
scheme prefix `http` (reason "Homepage URL is invalid", independent of the
fetch oracle, so no fetch is consulted), or the homepage fetch fails (reason
"Failed to fetch homepage"); when the fetch succeeds there is never a
manual-review item, and when both sitemap and homepage extraction yield zero
boards the result is the empty board list with no review item. -/
theorem discover_boards_manual_review_characterization
    (fetch : String → Nat → Option Doc) (info : DeptInfo) (url : String) :
    ((discover_boards fetch info url).manual_review.isSome = true ↔
      (url = "NOT_FOUND" ∨ py_startswith url "http" = false ∨ fetch url 7 = none)) ∧
    ((url = "NOT_FOUND" ∨ py_startswith url "http" = false) →
      (∀ fetch2 : String → Nat → Option Doc,
        discover_boards fetch2 info url = discover_boards fetch info url) ∧
      discover_boards fetch info url =
        { boards := []
          manual_review := some ⟨info.campus, info.name, url, "Homepage URL is invalid"⟩ }) ∧
    (url ≠ "NOT_FOUND" → py_startswith url "http" = true → fetch url 7 = none →
      discover_boards fetch info url =
        { boards := []
          manual_review := some ⟨info.campus, info.name, url, "Failed to fetch homepage"⟩ }) ∧
    (∀ hdoc, url ≠ "NOT_FOUND" → py_startswith url "http" = true →
      fetch url 7 = some hdoc →
      (discover_boards fetch info url).manual_review = none ∧
      (_extract_boards_from_soup hdoc url (detect_cms_selectors hdoc url) = [] →
       (∀ sdoc, _find_sitemap fetch hdoc url = some sdoc →
         _extract_boards_from_soup sdoc url (detect_cms_selectors hdoc url) = []) →
       (discover_boards fetch info url).boards = [])) := by
  by_cases hv : url = "NOT_FOUND" ∨ py_startswith url "http" = false
  · have hd := discover_boards_invalid fetch info url hv
    refine ⟨?_, ?_, ?_, ?_⟩
    · rw [hd]
      exact iff_of_true rfl (hv.elim Or.inl (fun hb => Or.inr (Or.inl hb)))
    · intro _
      exact ⟨fun fetch2 => (discover_boards_invalid fetch2 info url hv).trans hd.symm, hd⟩
    · intro hnf hsw _
      cases hv with
      | inl h => exact absurd h hnf
      | inr h => rw [hsw] at h; cases h
    · intro hdoc hnf hsw _
      cases hv with
      | inl h => exact absurd h hnf
      | inr h => rw [hsw] at h; cases h
  · have hnf : url ≠ "NOT_FOUND" := fun h => hv (Or.inl h)
    cases hf : fetch url 7 with
    | none =>
      have hd := discover_boards_fetch_failed fetch info url hv hf
      refine ⟨?_, ?_, ?_, ?_⟩
      · rw [hd]
        exact iff_of_true rfl (Or.inr (Or.inr rfl))
      · intro h
        exact absurd h hv
      · intro _ _ _
        exact hd
      · intro hdoc _ _ hfs
        cases hfs
    | some hdoc0 =>
      have hd := discover_boards_fetched fetch info url hdoc0 hv hf
      have hmr : (discover_boards fetch info url).manual_review = none := by
        rw [hd]
        cases hsm : _find_sitemap fetch hdoc0 url with
        | none => rfl
        | some sdoc =>
          dsimp only
          by_cases hb : _extract_boards_from_soup sdoc url (detect_cms_selectors hdoc0 url) = []
          · rw [if_pos hb]
          · rw [if_neg hb]
      refine ⟨?_, ?_, ?_, ?_⟩
      · rw [hmr]
        refine iff_of_false (by simp) ?_
        rintro (h | h | h)
        · exact hnf h
        · exact hv (Or.inr h)
        · cases h
      · intro h
        exact absurd h hv
      · intro _ _ hfn
        cases hfn
      · intro hdoc _ _ hfs
        injection hfs with heq
        subst heq
        refine ⟨hmr, ?_⟩
        intro hhome hsall
        rw [hd]
        cases hsm : _find_sitemap fetch hdoc0 url with
        | none =>
          dsimp only
          exact hhome
        | some sdoc =>
          dsimp only
          rw [if_pos (hsall sdoc hsm)]
          exact hhome

/-- Claim C3: when the homepage fetch succeeds, a found-and-fetched sitemap
is extracted first — a nonempty sitemap extraction is returned verbatim and
the homepage document is never extracted; a sitemap yielding zero boards, or
no sitemap (absent link or failed sitemap fetch), falls back to extracting
the homepage document, whose possibly empty result is returned. -/
theorem discover_boards_sitemap_priority
    (fetch : String → Nat → Option Doc) (info : DeptInfo) (url : String) (hdoc : Doc)
    (hnf : url ≠ "NOT_FOUND") (hsw : py_startswith url "http" = true)
    (hf : fetch url 7 = some hdoc) :
    (∀ sdoc, _find_sitemap fetch hdoc url = some sdoc →
      (_extract_boards_from_soup sdoc url (detect_cms_selectors hdoc url) ≠ [] →
        (discover_boards fetch info url).boards
          = _extract_boards_from_soup sdoc url (detect_cms_selectors hdoc url)) ∧
      (_extract_boards_from_soup sdoc url (detect_cms_selectors hdoc url) = [] →
        (discover_boards fetch info url).boards
          = _extract_boards_from_soup hdoc url (detect_cms_selectors hdoc url))) ∧
    (_find_sitemap fetch hdoc url = none →
      (discover_boards fetch info url).boards
        = _extract_boards_from_soup hdoc url (detect_cms_selectors hdoc url)) := by
  have hv : ¬(url = "NOT_FOUND" ∨ py_startswith url "http" = false) := by
    rintro (h | h)
    · exact hnf h
    · rw [hsw] at h; cases h
  have hd := discover_boards_fetched fetch info url hdoc hv hf
  constructor
  · intro sdoc hsm
    constructor
    · intro hne
      rw [hd, hsm]
      dsimp only
      rw [if_neg hne]
    · intro he
      rw [hd, hsm]
      dsimp only
      rw [if_pos he]
  · intro hsm
    rw [hd, hsm]

/-- Claim C3, witness: on the example site the sitemap is found, fetched and
yields a board, and the discovery result is exactly the sitemap extraction. -/
theorem discover_boards_sitemap_priority_witness :
    (discover_boards ex_fetch_site { campus := "신촌캠퍼스", name := "경제학부" }
        "http://h/home").boards
      = _extract_boards_from_soup ex_map_doc "http://h/home"
          (detect_cms_selectors ex_home_doc "http://h/home") :=
  (((discover_boards_sitemap_priority ex_fetch_site
      { campus := "신촌캠퍼스", name := "경제학부" } "http://h/home" ex_home_doc
      (by decide) (by decide) (by decide)).1 ex_map_doc (by decide)).1 (by decide))

theorem _extract_go_eq_tagged (soup : Doc) (base_url : String) (defaults : Option Selectors)
    (base_domain : String) :
    ∀ links seen_urls id_counts,
      _extract_go soup base_url defaults base_domain links seen_urls id_counts
        = (_extract_go_tagged soup base_url defaults base_domain links seen_urls
            id_counts).map Prod.snd := by
  intro links
  induction links with
  | nil => intro seen counts; rfl
  | cons hd tl ih =>
    intro seen counts
    obtain ⟨text, href⟩ := hd
    by_cases h1 : _is_valid_board_link text href = false
    · simp only [_extract_go, _extract_go_tagged, if_pos h1]
      exact ih seen counts
    · by_cases h2 : (seen.contains (urljoin base_url href) || str_in "javascript" href ||
          str_in "#" href) = true
      · simp only [_extract_go, _extract_go_tagged, if_neg h1]
        rw [if_pos h2, if_pos h2]
        exact ih seen counts
      · by_cases h3 : pyLower (url_netloc (urljoin base_url href)) = base_domain
        · cases hmk : _match_keyword soup (urljoin base_url href) defaults text KEYWORD_MAP with
          | none =>
            simp only [_extract_go, _extract_go_tagged, if_neg h1]
            rw [if_neg h2, if_neg h2, if_neg (by simp [h3]), if_neg (by simp [h3]), hmk]
            exact ih _ _
          | some ms =>
            obtain ⟨meta, sel⟩ := ms
            simp only [_extract_go, _extract_go_tagged, if_neg h1]
            rw [if_neg h2, if_neg h2, if_neg (by simp [h3]), if_neg (by simp [h3]), hmk]
            dsimp only
            rw [List.map_cons]
            exact congrArg _ (ih _ _)
        · simp only [_extract_go, _extract_go_tagged, if_neg h1]
          rw [if_neg h2, if_neg h2, if_pos (by simp [h3]), if_pos (by simp [h3])]
          exact ih seen counts

theorem _extract_go_tagged_ids (soup : Doc) (base_url : String) (defaults : Option Selectors)
    (base_domain : String) :
    ∀ links seen_urls id_counts i p,
      (_extract_go_tagged soup base_url defaults base_domain links seen_urls
        id_counts)[i]? = some p →
      p.2.id = _board_final_id p.1
        (dict_get id_counts p.1 +
          (((_extract_go_tagged soup base_url defaults base_domain links seen_urls
            id_counts).take (i + 1)).filter (fun q => q.1 == p.1)).length) := by
  intro links
  induction links with
  | nil =>
    intro seen counts i p hp
    simp [_extract_go_tagged] at hp
  | cons hd tl ih =>
    intro seen counts i p hp
    obtain ⟨text, href⟩ := hd
    by_cases h1 : _is_valid_board_link text href = false
    · simp only [_extract_go_tagged, if_pos h1] at hp ⊢
      exact ih seen counts i p hp
    · by_cases h2 : (seen.contains (urljoin base_url href) || str_in "javascript" href ||
          str_in "#" href) = true
      · simp only [_extract_go_tagged, if_neg h1] at hp ⊢
        rw [if_pos h2] at hp ⊢
        exact ih seen counts i p hp
      · by_cases h3 : pyLower (url_netloc (urljoin base_url href)) = base_domain
        · cases hmk : _match_keyword soup (urljoin base_url href) defaults text KEYWORD_MAP with
          | none =>
            simp only [_extract_go_tagged, if_neg h1] at hp ⊢
            rw [if_neg h2, if_neg (by simp [h3]), hmk] at hp ⊢
            exact ih _ _ i p hp
          | some ms =>
            obtain ⟨meta, sel⟩ := ms
            simp only [_extract_go_tagged, if_neg h1] at hp ⊢
            rw [if_neg h2, if_neg (by simp [h3]), hmk] at hp ⊢
            dsimp only at hp ⊢
            cases i with
            | zero =>
              rw [List.getElem?_cons_zero] at hp
              injection hp with hpe
              subst hpe
              simp [List.take_succ_cons, List.filter_cons]
            | succ j =>
              rw [List.getElem?_cons_succ] at hp
              have hih := ih _ _ j p hp
              rw [hih]
              rw [List.take_succ_cons, List.filter_cons]
              dsimp only
              by_cases hx : meta.id = p.1
              · have hxb : (meta.id == p.1) = true := beq_iff_eq.mpr hx
                rw [hxb, if_pos rfl, List.length_cons, dict_get_set, if_pos hx.symm]
                congr 1
                rw [← hx]
                omega
              · have hxb : (meta.id == p.1) = false := beq_eq_false_iff_ne.mpr hx
                rw [hxb, if_neg (by decide), dict_get_set, if_neg (fun hh => hx hh.symm)]
        · simp only [_extract_go_tagged, if_neg h1] at hp ⊢
          rw [if_neg h2, if_pos (by simp [h3])] at hp ⊢
          exact ih seen counts i p hp

/-- Claim C6: within one board-extraction call the category-tagged view of
the extraction (`_extract_tagged`, equal to the real extraction after
dropping the tags) gives every board the id its category's running count
dictates — the Nth board of category X in encounter order is named by
`_board_final_id X N`, i.e. `X` for N = 1 and `X_N` for N > 1 — and the
per-category counters start from zero for each call. -/
theorem extract_board_id_disambiguation (soup : Doc) (base_url : String)
    (defaults : Option Selectors) :
    _extract_boards_from_soup soup base_url defaults
      = (_extract_tagged soup base_url defaults).map Prod.snd ∧
    ∀ i p, (_extract_tagged soup base_url defaults)[i]? = some p →
      p.2.id = _board_final_id p.1
        (((_extract_tagged soup base_url defaults).take (i + 1)).filter
          (fun q => q.1 == p.1)).length := by
  constructor
  · exact _extract_go_eq_tagged soup base_url defaults (pyLower (url_netloc base_url))
      (anchors_with_href soup) [] []
  · intro i p hp
    have h := _extract_go_tagged_ids soup base_url defaults (pyLower (url_netloc base_url))
      (anchors_with_href soup) [] [] i p hp
    simpa [dict_get] using h

/-- Claim C6, witness: on a document with two anchors of the same category,
the second tagged board carries the suffixed id dictated by the counting
rule. -/
theorem extract_board_id_disambiguation_witness :
    (_extract_tagged ex_two_notice_doc "http://h/" none)[1]?
        = some ("notice",
          { id := "notice_2", name := "공지사항 2", url := "http://h/b.do"
            row_selector := "tr:has(a.c-board-title)"
            title_selector := "a.c-board-title"
            date_selector := "td:nth-last-child(1)"
            attr_name := "href" }) ∧
    ("notice",
      ({ id := "notice_2", name := "공지사항 2", url := "http://h/b.do"
         row_selector := "tr:has(a.c-board-title)"
         title_selector := "a.c-board-title"
         date_selector := "td:nth-last-child(1)"
         attr_name := "href" } : Board)).2.id
      = _board_final_id "notice"
          (((_extract_tagged ex_two_notice_doc "http://h/" none).take 2).filter
            (fun q => q.1 == "notice")).length :=
  ⟨by decide,
    (extract_board_id_disambiguation ex_two_notice_doc "http://h/" none).2 1 _ (by decide)⟩

theorem _extract_go_url_unseen (soup : Doc) (base_url : String) (defaults : Option Selectors)
    (base_domain : String) :
    ∀ links seen_urls id_counts b,
      b ∈ _extract_go soup base_url defaults base_domain links seen_urls id_counts →
      seen_urls.contains b.url = false := by
  intro links
  induction links with
  | nil =>
    intro seen counts b hb
    simp [_extract_go] at hb
  | cons hd tl ih =>
    intro seen counts b hb
    obtain ⟨text, href⟩ := hd
    by_cases h1 : _is_valid_board_link text href = false
    · simp only [_extract_go, if_pos h1] at hb
      exact ih seen counts b hb
    · by_cases h2 : (seen.contains (urljoin base_url href) || str_in "javascript" href ||
          str_in "#" href) = true
      · simp only [_extract_go, if_neg h1] at hb
        rw [if_pos h2] at hb
        exact ih seen counts b hb
      · have h2' : seen.contains (urljoin base_url href) = false := by
          cases hc : seen.contains (urljoin base_url href) with
          | false => rfl
          | true => exact absurd (by rw [hc]; rfl) h2
        by_cases h3 : pyLower (url_netloc (urljoin base_url href)) = base_domain
        · cases hmk : _match_keyword soup (urljoin base_url href) defaults text KEYWORD_MAP with
          | none =>
            simp only [_extract_go, if_neg h1] at hb
            rw [if_neg h2, if_neg (by simp [h3]), hmk] at hb
            exact ih _ _ b hb
          | some ms =>
            obtain ⟨meta, sel⟩ := ms
            simp only [_extract_go, if_neg h1] at hb
            rw [if_neg h2, if_neg (by simp [h3]), hmk] at hb
            dsimp only at hb
            rcases List.mem_cons.mp hb with hb1 | hb1
            · subst hb1
              exact h2'
            · have := ih _ _ b hb1
              rw [List.contains_cons] at this
              exact (Bool.or_eq_false_iff.mp this).2
        · simp only [_extract_go, if_neg h1] at hb
          rw [if_neg h2, if_pos (by simp [h3])] at hb
          exact ih seen counts b hb

theorem _extract_go_urls_nodup (soup : Doc) (base_url : String) (defaults : Option Selectors)
    (base_domain : String) :
    ∀ links seen_urls id_counts,
      ((_extract_go soup base_url defaults base_domain links seen_urls
        id_counts).map Board.url).Nodup := by
  intro links
  induction links with
  | nil =>
    intro seen counts
    simp [_extract_go]
  | cons hd tl ih =>
    intro seen counts
    obtain ⟨text, href⟩ := hd
    by_cases h1 : _is_valid_board_link text href = false
    · simp only [_extract_go, if_pos h1]
      exact ih seen counts
    · by_cases h2 : (seen.contains (urljoin base_url href) || str_in "javascript" href ||
          str_in "#" href) = true
      · simp only [_extract_go, if_neg h1]
        rw [if_pos h2]
        exact ih seen counts
      · by_cases h3 : pyLower (url_netloc (urljoin base_url href)) = base_domain
        · cases hmk : _match_keyword soup (urljoin base_url href) defaults text KEYWORD_MAP with
          | none =>
            simp only [_extract_go, if_neg h1]
            rw [if_neg h2, if_neg (by simp [h3]), hmk]
            exact ih _ _
          | some ms =>
            obtain ⟨meta, sel⟩ := ms
            simp only [_extract_go, if_neg h1]
            rw [if_neg h2, if_neg (by simp [h3]), hmk]
            dsimp only
            rw [List.map_cons, List.nodup_cons]
            refine ⟨?_, ih _ _⟩
            intro hm
            obtain ⟨b, hbr, hbu⟩ := List.mem_map.mp hm
            have hun := _extract_go_url_unseen soup base_url defaults base_domain tl
              (urljoin base_url href :: seen) (dict_set counts meta.id (dict_get counts meta.id + 1))
              b hbr
            rw [List.contains_cons] at hun
            have := (Bool.or_eq_false_iff.mp hun).1
            rw [hbu] at this
            simp at this
        · simp only [_extract_go, if_neg h1]
          rw [if_neg h2, if_pos (by simp [h3])]
          exact ih seen counts

/-- Claim C7: one board-extraction call never returns two Boards with the
same url — every emitted board's resolved URL enters the per-call seen set
and later anchors resolving to it are rejected, so the url projection of the
result is duplicate-free for all inputs. -/
theorem extract_boards_urls_nodup (soup : Doc) (base_url : String)
    (defaults : Option Selectors) :
    ((_extract_boards_from_soup soup base_url defaults).map Board.url).Nodup :=
  _extract_go_urls_nodup soup base_url defaults (pyLower (url_netloc base_url))
    (anchors_with_href soup) [] []

theorem _extract_go_provenance (soup : Doc) (base_url : String) (defaults : Option Selectors)
    (base_domain : String) :
    ∀ links seen_urls id_counts b,
      b ∈ _extract_go soup base_url defaults base_domain links seen_urls id_counts →
      pyLower (url_netloc b.url) = base_domain ∧
      ∃ t h, (t, h) ∈ links ∧ b.url = urljoin base_url h ∧
        str_in "javascript" h = false ∧ str_in "#" h = false := by
  intro links
  induction links with
  | nil =>
    intro seen counts b hb
    simp [_extract_go] at hb
  | cons hd tl ih =>
    intro seen counts b hb
    obtain ⟨text, href⟩ := hd
    by_cases h1 : _is_valid_board_link text href = false
    · simp only [_extract_go, if_pos h1] at hb
      obtain ⟨hnet, t, h, hm, rest⟩ := ih seen counts b hb
      exact ⟨hnet, t, h, List.mem_cons_of_mem _ hm, rest⟩
    · by_cases h2 : (seen.contains (urljoin base_url href) || str_in "javascript" href ||
          str_in "#" href) = true
      · simp only [_extract_go, if_neg h1] at hb
        rw [if_pos h2] at hb
        obtain ⟨hnet, t, h, hm, rest⟩ := ih seen counts b hb
        exact ⟨hnet, t, h, List.mem_cons_of_mem _ hm, rest⟩
      · have h2' : seen.contains (urljoin base_url href) = false ∧
            str_in "javascript" href = false ∧ str_in "#" href = false := by
          have hb2 : (seen.contains (urljoin base_url href) || str_in "javascript" href ||
              str_in "#" href) = false := Bool.eq_false_iff.mpr h2
          have p1 := Bool.or_eq_false_iff.mp hb2
          have p2 := Bool.or_eq_false_iff.mp p1.1
          exact ⟨p2.1, p2.2, p1.2⟩
        by_cases h3 : pyLower (url_netloc (urljoin base_url href)) = base_domain
        · cases hmk : _match_keyword soup (urljoin base_url href) defaults text KEYWORD_MAP with
          | none =>
            simp only [_extract_go, if_neg h1] at hb
            rw [if_neg h2, if_neg (by simp [h3]), hmk] at hb
            obtain ⟨hnet, t, h, hm, rest⟩ := ih _ _ b hb
            exact ⟨hnet, t, h, List.mem_cons_of_mem _ hm, rest⟩
          | some ms =>
            obtain ⟨meta, sel⟩ := ms
            simp only [_extract_go, if_neg h1] at hb
            rw [if_neg h2, if_neg (by simp [h3]), hmk] at hb
            dsimp only at hb
            rcases List.mem_cons.mp hb with hb1 | hb1
            · subst hb1
              exact ⟨h3, text, href, List.mem_cons_self _ _, rfl, h2'.2.1, h2'.2.2⟩
            · obtain ⟨hnet, t, h, hm, rest⟩ := ih _ _ b hb1
              exact ⟨hnet, t, h, List.mem_cons_of_mem _ hm, rest⟩
        · simp only [_extract_go, if_neg h1] at hb
          rw [if_neg h2, if_pos (by simp [h3])] at hb
          obtain ⟨hnet, t, h, hm, rest⟩ := ih seen counts b hb
          exact ⟨hnet, t, h, List.mem_cons_of_mem _ hm, rest⟩

/-- Claim C8: every Board one extraction call returns resolves its anchor's
href against the base URL to a URL on the same host (netloc compared
lowercased, hence hosts equal case-insensitively — cross-origin candidates
are rejected), and its originating anchor's href is neither a `javascript:`
pseudo-link (the source rejects any href containing `javascript`) nor one
containing the in-page fragment marker `#`. -/
theorem extract_boards_same_host_no_fragment (soup : Doc) (base_url : String)
    (defaults : Option Selectors) (b : Board)
    (hb : b ∈ _extract_boards_from_soup soup base_url defaults) :
    url_host_ci b.url = url_host_ci base_url ∧
    pyLower (url_netloc b.url) = pyLower (url_netloc base_url) ∧
    ∃ t h, (t, h) ∈ anchors_with_href soup ∧ b.url = urljoin base_url h ∧
      py_startswith h "javascript:" = false ∧ str_in "#" h = false := by
  obtain ⟨hnet, t, h, hm, hu, hj, hh⟩ :=
    _extract_go_provenance soup base_url defaults (pyLower (url_netloc base_url))
      (anchors_with_href soup) [] [] b hb
  refine ⟨?_, hnet, t, h, hm, hu, ?_, hh⟩
  · unfold url_host_ci
    rw [hnet]
  · cases hps : py_startswith h "javascript:" with
    | false => rfl
    | true =>
      have hin := py_startswith_javascript_str_in h hps
      rw [hj] at hin
      cases hin

/-- Claim C8, witness: the concrete board extracted from the two-anchor
document satisfies the same-host and clean-href properties. -/
theorem extract_boards_same_host_no_fragment_witness :
    url_host_ci (Board.mk "notice" "공지사항" "http://h/a.do" "tr:has(a.c-board-title)"
        "a.c-board-title" "td:nth-last-child(1)" "href").url = url_host_ci "http://h/" ∧
    pyLower (url_netloc (Board.mk "notice" "공지사항" "http://h/a.do" "tr:has(a.c-board-title)"
        "a.c-board-title" "td:nth-last-child(1)" "href").url)
      = pyLower (url_netloc "http://h/") ∧
    ∃ t h, (t, h) ∈ anchors_with_href ex_two_notice_doc ∧
      (Board.mk "notice" "공지사항" "http://h/a.do" "tr:has(a.c-board-title)"
        "a.c-board-title" "td:nth-last-child(1)" "href").url = urljoin "http://h/" h ∧
      py_startswith h "javascript:" = false ∧ str_in "#" h = false :=
  extract_boards_same_host_no_fragment ex_two_notice_doc "http://h/" none
    (Board.mk "notice" "공지사항" "http://h/a.do" "tr:has(a.c-board-title)"
      "a.c-board-title" "td:nth-last-child(1)" "href") (by decide)

theorem detect_cms_selectors_range (soup : Doc) (url : String) :
    detect_cms_selectors soup url = none ∨
    detect_cms_selectors soup url = some yonsei_cms_selectors ∨
    detect_cms_selectors soup url = some xe_cms_selectors := by
  unfold detect_cms_selectors
  by_cases h1 : (str_in ".do" url || str_in "c-board-title" (pyLower soup.markup)) = true
  · rw [if_pos h1]
    exact Or.inr (Or.inl rfl)
  · rw [if_neg h1]
    by_cases h2 : (str_in "xe-list-board" (pyLower soup.markup) ||
        str_in "xe_board" (pyLower soup.markup)) = true
    · rw [if_pos h2]
      exact Or.inr (Or.inr rfl)
    · rw [if_neg h2]
      exact Or.inl rfl

theorem _match_keyword_range (soup : Doc) (full_url : String) (defaults : Option Selectors)
    (text : String)
    (hd : defaults = none ∨ defaults = some yonsei_cms_selectors ∨
      defaults = some xe_cms_selectors) :
    ∀ klist meta sel, _match_keyword soup full_url defaults text klist = some (meta, sel) →
      sel = yonsei_cms_selectors ∨ sel = xe_cms_selectors := by
  intro klist
  induction klist with
  | nil =>
    intro meta sel h
    cases h
  | cons kv rest ih =>
    intro meta sel h
    obtain ⟨kw, m⟩ := kv
    by_cases hk : str_in kw text = false
    · simp only [_match_keyword, if_pos hk] at h
      exact ih meta sel h
    · simp only [_match_keyword, if_neg hk] at h
      cases hdet : detect_cms_selectors soup full_url with
      | some s =>
        rw [hdet] at h
        dsimp only at h
        injection h with he
        have hs2 : s = sel := congrArg Prod.snd he
        cases detect_cms_selectors_range soup full_url with
        | inl hn => rw [hdet] at hn; cases hn
        | inr hr =>
          cases hr with
          | inl hy =>
            rw [hdet] at hy
            exact Or.inl (hs2.symm.trans (Option.some.inj hy))
          | inr hx =>
            rw [hdet] at hx
            exact Or.inr (hs2.symm.trans (Option.some.inj hx))
      | none =>
        rw [hdet] at h
        dsimp only at h
        cases hd with
        | inl hdn =>
          rw [hdn] at h
          dsimp only at h
          exact ih meta sel (hdn ▸ h)
        | inr hdr =>
          cases hdr with
          | inl hdy =>
            rw [hdy] at h
            dsimp only at h
            injection h with he
            have : yonsei_cms_selectors = sel := congrArg Prod.snd he
            exact Or.inl this.symm
          | inr hdx =>
            rw [hdx] at h
            dsimp only at h
            injection h with he
            have : xe_cms_selectors = sel := congrArg Prod.snd he
            exact Or.inr this.symm

theorem _extract_go_selectors (soup : Doc) (base_url : String) (defaults : Option Selectors)
    (base_domain : String)
    (hd : defaults = none ∨ defaults = some yonsei_cms_selectors ∨
      defaults = some xe_cms_selectors) :
    ∀ links seen_urls id_counts b,
      b ∈ _extract_go soup base_url defaults base_domain links seen_urls id_counts →
      board_selectors b = yonsei_cms_selectors ∨ board_selectors b = xe_cms_selectors := by
  intro links
  induction links with
  | nil =>
    intro seen counts b hb
    simp [_extract_go] at hb
  | cons hdl tl ih =>
    intro seen counts b hb
    obtain ⟨text, href⟩ := hdl
    by_cases h1 : _is_valid_board_link text href = false
    · simp only [_extract_go, if_pos h1] at hb
      exact ih seen counts b hb
    · by_cases h2 : (seen.contains (urljoin base_url href) || str_in "javascript" href ||
          str_in "#" href) = true
      · simp only [_extract_go, if_neg h1] at hb
        rw [if_pos h2] at hb
        exact ih seen counts b hb
      · by_cases h3 : pyLower (url_netloc (urljoin base_url href)) = base_domain
        · cases hmk : _match_keyword soup (urljoin base_url href) defaults text KEYWORD_MAP with
          | none =>
            simp only [_extract_go, if_neg h1] at hb
            rw [if_neg h2, if_neg (by simp [h3]), hmk] at hb
            exact ih _ _ b hb
          | some ms =>
            obtain ⟨meta, sel⟩ := ms
            simp only [_extract_go, if_neg h1] at hb
            rw [if_neg h2, if_neg (by simp [h3]), hmk] at hb
            dsimp only at hb
            rcases List.mem_cons.mp hb with hb1 | hb1
            · subst hb1
              have hr := _match_keyword_range soup (urljoin base_url href) defaults text hd
                KEYWORD_MAP meta sel hmk
              cases hr with
              | inl hy => exact Or.inl (by rw [← hy]; rfl)
              | inr hx => exact Or.inr (by rw [← hx]; rfl)
            · exact ih _ _ b hb1
        · simp only [_extract_go, if_neg h1] at hb
          rw [if_neg h2, if_pos (by simp [h3])] at hb
          exact ih seen counts b hb

/-- Claim C10: every Board `discover_boards` ever returns carries exactly one
of the two fixed selector bundles — the primary Yonsei CMS bundle or the XE
list-based bundle — because both the per-board detection and the default
bundle come from the same two-rule detector; in particular its `attr_name`
is always `"href"`. -/
theorem discover_boards_selector_bundles (fetch : String → Nat → Option Doc)
    (info : DeptInfo) (url : String) (b : Board)
    (hb : b ∈ (discover_boards fetch info url).boards) :
    (board_selectors b = yonsei_cms_selectors ∨ board_selectors b = xe_cms_selectors) ∧
    b.attr_name = "href" := by
  have main : board_selectors b = yonsei_cms_selectors ∨ board_selectors b = xe_cms_selectors := by
    by_cases hv : url = "NOT_FOUND" ∨ py_startswith url "http" = false
    · rw [discover_boards_invalid fetch info url hv] at hb
      simp at hb
    · cases hf : fetch url 7 with
      | none =>
        rw [discover_boards_fetch_failed fetch info url hv hf] at hb
        simp at hb
      | some hdoc =>
        rw [discover_boards_fetched fetch info url hdoc hv hf] at hb
        have hdef := detect_cms_selectors_range hdoc url
        cases hsm : _find_sitemap fetch hdoc url with
        | none =>
          rw [hsm] at hb
          dsimp only at hb
          exact _extract_go_selectors hdoc url (detect_cms_selectors hdoc url)
            (pyLower (url_netloc url)) hdef (anchors_with_href hdoc) [] [] b hb
        | some sdoc =>
          rw [hsm] at hb
          dsimp only at hb
          by_cases he : _extract_boards_from_soup sdoc url (detect_cms_selectors hdoc url) = []
          · rw [if_pos he] at hb
            exact _extract_go_selectors hdoc url (detect_cms_selectors hdoc url)
              (pyLower (url_netloc url)) hdef (anchors_with_href hdoc) [] [] b hb
          · rw [if_neg he] at hb
            exact _extract_go_selectors sdoc url (detect_cms_selectors hdoc url)
              (pyLower (url_netloc url)) hdef (anchors_with_href sdoc) [] [] b hb
  refine ⟨main, ?_⟩
  cases main with
  | inl h => exact congrArg Selectors.attr_name h
  | inr h => exact congrArg Selectors.attr_name h

/-- Claim C10, witness: the board discovered on the plain example homepage
carries the primary bundle and `attr_name` `"href"`. -/
theorem discover_boards_selector_bundles_witness :
    (board_selectors (Board.mk "notice" "공지사항" "http://h10/bbs/list.do"
        "tr:has(a.c-board-title)" "a.c-board-title" "td:nth-last-child(1)" "href")
          = yonsei_cms_selectors ∨
      board_selectors (Board.mk "notice" "공지사항" "http://h10/bbs/list.do"
        "tr:has(a.c-board-title)" "a.c-board-title" "td:nth-last-child(1)" "href")
          = xe_cms_selectors) ∧
    (Board.mk "notice" "공지사항" "http://h10/bbs/list.do" "tr:has(a.c-board-title)"
      "a.c-board-title" "td:nth-last-child(1)" "href").attr_name = "href" :=
  discover_boards_selector_bundles ex_fetch_plain
    { campus := "미래캠퍼스", name := "보건행정학부" } "http://h10/"
    (Board.mk "notice" "공지사항" "http://h10/bbs/list.do" "tr:has(a.c-board-title)"
      "a.c-board-title" "td:nth-last-child(1)" "href") (by decide)

theorem mapM_map_roundtrip {α β : Type} (f : α → β) (g : β → Option α)
    (hfg : ∀ a, g (f a) = some a) :
    ∀ l : List α, (l.map f).mapM g = some l := by
  intro l
  induction l with
  | nil => rfl
  | cons a t ih =>
    rw [List.map_cons, List.mapM_cons, hfg a, ih]
    rfl

theorem board_from_to_dict (b : Board) : Board.from_dict (Board.to_dict b) = some b := rfl

theorem department_from_to_dict (d : Department) :
    Department.from_dict (Department.to_dict d) = some d := by
  show Option.map (fun boards => { id := d.id, name := d.name, url := d.url, boards := boards })
      ((d.boards.map Board.to_dict).mapM Board.from_dict) = some d
  rw [mapM_map_roundtrip Board.to_dict Board.from_dict board_from_to_dict d.boards]
  rfl

theorem college_from_to_dict (c : College) :
    College.from_dict (College.to_dict c) = some c := by
  show Option.map (fun deps => { name := c.name, departments := deps })
      ((c.departments.map Department.to_dict).mapM Department.from_dict) = some c
  rw [mapM_map_roundtrip Department.to_dict Department.from_dict department_from_to_dict
    c.departments]
  rfl

/-- Claim C9: serializing any Campus entity tree to the output JSON shape
(`campus`/`colleges`/`name`/`departments`/`id`/`url`/`boards` plus the four
selector-bundle keys) and re-parsing that JSON reproduces an equal entity
tree; the parsing direction is modelled from the spec since the repository
only ships the serializers. -/
theorem campus_to_dict_roundtrip (c : Campus) :
    Campus.from_dict (Campus.to_dict c) = some c := by
  show Option.map (fun colleges => { campus := c.campus, colleges := colleges })
      ((c.colleges.map College.to_dict).mapM College.from_dict) = some c
  rw [mapM_map_roundtrip College.to_dict College.from_dict college_from_to_dict c.colleges]
  rfl
